import Mathlib

/-!
Shallow embedding of `src/main.py` (bendog/following_api): a FastAPI
websocket chat hub (`ConnectionManager`) with a status-aggregation layer
(`FollowingStatus`) on top, plus the `/ws/{client_id}` and `/mon/ws/`
endpoint loops.

Modelling conventions:
- A websocket is an opaque handle.  Chat-endpoint channels are modelled as
  `Nat × String` pairs (transport handle plus the path identity the task
  was started with); monitor channels are plain `Nat` handles.
- Outbound text frames are modelled by the inductive `Msg`, one constructor
  per f-string of the source; the serialized aggregate is carried as a
  `Json` value (the structure `json.dumps` would print).
- Machine floats of the source (`statistics.mean`, `/`, `median_grouped`)
  are modelled exactly over `ℚ`; Python ints over `ℤ`.
- Exceptions are modelled with `Option`/success flags: an operation that
  raises returns the state as mutated up to the raise point together with
  `false`.
-/

/-- JSON values, enough for `json.dumps({"detail": ..., "mean": ..., "median": ...})`.
An object is its ordered field sequence, as a cons-chain (`objNil`/`objCons`). -/
inductive Json where
  | num (q : ℚ)
  | str (s : String)
  | objNil
  | objCons (key : String) (value : Json) (rest : Json)
  deriving DecidableEq, Repr

/-- Build a JSON object from an ordered field list. -/
def Json.objOf : List (String × Json) → Json
  | [] => .objNil
  | (k, v) :: fs => .objCons k v (Json.objOf fs)

/-- The ordered keys of a JSON object (`none` on a non-object). -/
def Json.topKeys : Json → Option (List String)
  | .objNil => some []
  | .objCons k _ rest => (Json.topKeys rest).map (fun ks => k :: ks)
  | _ => none

/-- The outbound text frames of `main.py`, one constructor per f-string.
`aggregate` carries the JSON aggregate broadcast by `FollowingStatus.update_value`. -/
inductive Msg where
  | youWrote (data : String)
  | says (clientId : String) (data : String)
  | adjusted (clientId : String) (score : ℤ)
  | followingValue (avg : ℚ)
  | leftChat (clientId : String)
  | aggregate (payload : Json)
  deriving DecidableEq, Repr

/-! ### Python primitives used by the source -/

/-- Remove the first occurrence of `a` (Python `list.remove` after the
membership check succeeded). -/
def removeFirst {α : Type} [DecidableEq α] : List α → α → List α
  | [], _ => []
  | x :: xs, a => if x = a then xs else x :: removeFirst xs a

/-- Python dict assignment `d[k] = v`: overwrite in place if the key is
present, else append the new key at the end (insertion order). -/
def dictSet (d : List (String × ℤ)) (k : String) (v : ℤ) : List (String × ℤ) :=
  if k ∈ d.map Prod.fst then
    d.map (fun p => if p.1 = k then (k, v) else p)
  else d ++ [(k, v)]

/-- Python `del d[k]`: `none` models the `KeyError` on an absent key. -/
def dictDel (d : List (String × ℤ)) (k : String) : Option (List (String × ℤ)) :=
  if k ∈ d.map Prod.fst then some (d.filter (fun p => p.1 ≠ k)) else none

/-- Python `d[k]` read: `none` models the `KeyError`. -/
def dictGet (d : List (String × ℤ)) (k : String) : Option ℤ :=
  (d.find? (fun p => p.1 = k)).map Prod.snd

/-- Decimal value of a digit character. -/
def digitVal (c : Char) : Nat := c.toNat - 48

/-- Digits of a Python integer literal after the first digit:
`digit (["_"] digit)*` — single underscores allowed between digits only. -/
def parseDigitsAux : Nat → List Char → Option Nat
  | acc, [] => some acc
  | acc, c :: cs =>
    if c.isDigit then parseDigitsAux (10 * acc + digitVal c) cs
    else if c = '_' then
      match cs with
      | d :: cs2 => if d.isDigit then parseDigitsAux (10 * acc + digitVal d) cs2 else none
      | [] => none
    else none

/-- A nonempty digit run (first character must be a digit). -/
def parseDigits : List Char → Option Nat
  | [] => none
  | c :: cs => if c.isDigit then parseDigitsAux (digitVal c) cs else none

/-- Strip leading and trailing whitespace (Python `int` accepts it). -/
def pyStrip (cs : List Char) : List Char :=
  ((cs.dropWhile Char.isWhitespace).reverse.dropWhile Char.isWhitespace).reverse

/-- Python `int(s)` for base-10 strings: optional surrounding whitespace,
optional single sign, digits with optional single underscores between them.
`none` models the `ValueError`. -/
def pyInt (s : String) : Option ℤ :=
  match pyStrip s.data with
  | '+' :: rest => (parseDigits rest).map (fun n => (n : ℤ))
  | '-' :: rest => (parseDigits rest).map (fun n => -(n : ℤ))
  | cs => (parseDigits cs).map (fun n => (n : ℤ))

/-- Python `sum` over a list of ints. -/
def pySum (l : List ℤ) : ℤ := l.foldl (· + ·) 0

/-- Insert into a sorted list, keeping order (helper for `pySorted`). -/
def insertSorted (x : ℤ) : List ℤ → List ℤ
  | [] => [x]
  | y :: ys => if x ≤ y then x :: y :: ys else y :: insertSorted x ys

/-- Python `sorted` on ints (any stable sort; values are totally ordered). -/
def pySorted (l : List ℤ) : List ℤ := l.foldr insertSorted []

/-! ### ConnectionManager (`main.py` lines 17-37)

State of one manager instance, generic in the handle type `H`, plus a
`sent` log recording every successfully delivered `send_text` as
`(handle, message)` in delivery order. -/

structure ConnectionManager (H : Type) where
  active_connections : List H
  history : List Msg
  sent : List (H × Msg)
  deriving DecidableEq, Repr

namespace ConnectionManager

variable {H : Type} [DecidableEq H]

/-- Constructor `ConnectionManager()` (lines 18-20). -/
def init : ConnectionManager H := ⟨[], [], []⟩

/-- Method `connect` (lines 22-26): accept, send every history message to the new
websocket, then append it to `active_connections`.  This is the
no-transport-failure run; see `connectF` for the failing-send variant. -/
def connect (s : ConnectionManager H) (w : H) : ConnectionManager H :=
  { s with
    sent := s.sent ++ s.history.map (fun m => (w, m)),
    active_connections := s.active_connections ++ [w] }

/-- Method `disconnect` (lines 28-29): `list.remove` deletes the first occurrence;
on an absent handle it raises `ValueError`, modelled by the `false` flag
(state unchanged, exception propagates). -/
def disconnect (s : ConnectionManager H) (w : H) : ConnectionManager H × Bool :=
  if w ∈ s.active_connections then
    ({ s with active_connections := removeFirst s.active_connections w }, true)
  else (s, false)

/-- Method `send_personal_message` (lines 31-32). -/
def send_personal_message (s : ConnectionManager H) (m : Msg) (w : H) :
    ConnectionManager H :=
  { s with sent := s.sent ++ [(w, m)] }

/-- Method `broadcast` (lines 34-37), no-transport-failure run.  Faithful to the
source: `self.history.append(message)` sits INSIDE the `for` loop, so the
message is appended once per registered connection, interleaved with the
sends. -/
def broadcast (s : ConnectionManager H) (m : Msg) : ConnectionManager H :=
  { s with
    history := s.history ++ s.active_connections.map (fun _ => m),
    sent := s.sent ++ s.active_connections.map (fun w => (w, m)) }

/-- One `broadcast` sweep (lines 35-37) over the listed connections when
sends to the handles in `bad` raise: per iteration the history append
happens first, then the send; an exception aborts the remaining loop.
Returns (handles that received a send attempt, history entries appended,
successful deliveries, completed-without-exception). -/
def sweep (bad : H → Bool) (m : Msg) :
    List H → List H × List Msg × List (H × Msg) × Bool
  | [] => ([], [], [], true)
  | w :: ws =>
    if bad w then ([w], [m], [], false)
    else
      let r := sweep bad m ws
      (w :: r.1, m :: r.2.1, (w, m) :: r.2.2.1, r.2.2.2)

/-- Variant of `broadcast` (lines 34-37) when sends to handles in `bad` fail: the
state as mutated when the sweep ends (normally or by the exception),
together with the attempted handles and the success flag. -/
def broadcastF (bad : H → Bool) (s : ConnectionManager H) (m : Msg) :
    ConnectionManager H × List H × Bool :=
  let r := sweep bad m s.active_connections
  ({ s with history := s.history ++ r.2.1, sent := s.sent ++ r.2.2.1 },
   r.1, r.2.2.2)

/-- Variant of `connect` (lines 22-26) when sends to handles in `bad` fail: replaying
a non-empty history into a failing websocket raises on the first
`send_text`, BEFORE `active_connections.append` runs, so the channel is
never registered. -/
def connectF (bad : H → Bool) (s : ConnectionManager H) (w : H) :
    ConnectionManager H × Bool :=
  if bad w && !s.history.isEmpty then (s, false)
  else (connect s w, true)

end ConnectionManager

/-! ### FollowingStatus (`main.py` lines 40-72)

`FollowingStatus` extends `ConnectionManager` with `_status`, a dict
`client identity → int score`.  Its own hub (registry/history) is the one
the `/mon/ws/` monitor endpoint joins, so its handles are plain `Nat`. -/

structure FollowingStatus where
  hub : ConnectionManager Nat
  status : List (String × ℤ)
  deriving DecidableEq, Repr

/-- Python `statistics.mean` (CPython): exact fraction sum over the values divided
by the count; raises `StatisticsError` (`none`) when `n < 1`. -/
def statisticsMean (l : List ℤ) : Option ℚ :=
  if l.length < 1 then none
  else some ((l.foldl (fun acc x => acc + (x : ℚ)) 0) / (l.length : ℚ))

/-- Python `statistics.median_grouped` (CPython 3.9, `interval=1`): sort the data;
`n = 0` raises (`none`); `n = 1` returns the single value; otherwise with
`x = data[n//2]`, `L = x - 1/2`, `cf = data.index(x)`, `f = data.count(x)`
return `L + (n/2 - cf)/f` (true division). -/
def medianGrouped (l : List ℤ) : Option ℚ :=
  match pySorted l with
  | [] => none
  | [x] => some (x : ℚ)
  | ds =>
    let n := ds.length
    let x := ds.getD (n / 2) 0
    let L : ℚ := (x : ℚ) - 1 / 2
    let cf := ds.findIdx (fun y => y = x)
    let f := ds.count x
    some (L + ((n : ℚ) / 2 - (cf : ℚ)) / (f : ℚ))

namespace FollowingStatus

/-- Constructor `FollowingStatus()` (lines 41-43). -/
def init : FollowingStatus := ⟨ConnectionManager.init, []⟩

/-- Method `add_client` (lines 45-47): `self._status[client_id] = 0`. -/
def add_client (s : FollowingStatus) (client_id : String) : FollowingStatus :=
  { s with status := dictSet s.status client_id 0 }

/-- Method `remove_client` (lines 49-51): `del self._status[client_id]`; `none`
models the `KeyError` on an absent identity. -/
def remove_client (s : FollowingStatus) (client_id : String) :
    Option FollowingStatus :=
  (dictDel s.status client_id).map (fun st => { s with status := st })

/-- Method `client_status` (lines 58-60): `self._status[client_id]`. -/
def client_status (s : FollowingStatus) (client_id : String) : Option ℤ :=
  dictGet s.status client_id

/-- The `average` property (lines 62-64): `sum(values) / len(values)`;
`none` models the `ZeroDivisionError` on an empty dict. -/
def average (s : FollowingStatus) : Option ℚ :=
  if s.status.length = 0 then none
  else some ((pySum (s.status.map Prod.snd) : ℚ) / (s.status.length : ℚ))

/-- The `json` property (lines 66-72): the value `json.dumps` serializes —
an object with exactly the keys `detail`, `mean`, `median`, where `median`
is `math.floor(statistics.median_grouped(values))`.  `none` models the
`StatisticsError` both statistics functions raise on an empty dict. -/
def jsonOf (st : List (String × ℤ)) : Option Json :=
  match statisticsMean (st.map Prod.snd), medianGrouped (st.map Prod.snd) with
  | some m, some md =>
    some (Json.objOf
      [("detail", Json.objOf (st.map (fun p => (p.1, Json.num (p.2 : ℚ))))),
       ("mean", Json.num m),
       ("median", Json.num ((Rat.floor md : ℤ) : ℚ))])
  | _, _ => none

/-- Method `update_value` (lines 53-56): `self._status[client_id] = value`, a dict
assignment that inserts the key when absent, then `broadcast(self.json)` on
the manager's own hub.  `none` models an exception from the `json`
property. -/
def update_value (s : FollowingStatus) (client_id : String) (value : ℤ) :
    Option FollowingStatus :=
  let st := dictSet s.status client_id value
  (jsonOf st).map (fun j =>
    { hub := s.hub.broadcast (Msg.aggregate j), status := st })

end FollowingStatus

/-! ### The endpoint loops (`main.py` lines 76-121)

Global state: `CLIENTS` (the chat hub, whose channels we model as
`(transport handle, path identity)` pairs — two connections made with the
same identity are distinct websockets) and `FOLLOWING_STATUS`.
An `Op` is one atomic event of an endpoint task; `step` returns the state
as mutated when the handler finishes or the first exception escapes, plus
a completed-without-exception flag.  Transport sends succeed in this
machine (failing sends are modelled by `broadcastF`/`connectF`). -/

structure Sys where
  clients : ConnectionManager (Nat × String)
  followingStatus : FollowingStatus
  deriving DecidableEq, Repr

/-- Initial `Sys` at module load (lines 76-77). -/
def sysInit : Sys := ⟨ConnectionManager.init, FollowingStatus.init⟩

/-- Atomic endpoint events: a `/ws/{client_id}` task accepting, receiving
one text frame, or observing the disconnect; a `/mon/ws/` task accepting or
observing the disconnect. -/
inductive Op where
  | connect (h : Nat) (cid : String)
  | frame (h : Nat) (cid : String) (data : String)
  | disconnect (h : Nat) (cid : String)
  | monConnect (h : Nat)
  | monDisconnect (h : Nat)
  deriving DecidableEq, Repr

/-- One frame of `websocket_endpoint`'s `while True` body (lines 96-103). -/
def stepFrame (s : Sys) (h : Nat) (cid : String) (data : String) :
    Sys × Bool :=
  let c1 := s.clients.send_personal_message (Msg.youWrote data) (h, cid)
  match pyInt data with
  | some v =>
    match s.followingStatus.update_value cid v with
    | none => ({ clients := c1, followingStatus := s.followingStatus }, false)
    | some fs2 =>
      match fs2.client_status cid with
      | none => ({ clients := c1, followingStatus := fs2 }, false)
      | some sc =>
        let c2 := c1.broadcast (Msg.adjusted cid sc)
        match fs2.average with
        | none => ({ clients := c2, followingStatus := fs2 }, false)
        | some a =>
          ({ clients := c2.broadcast (Msg.followingValue a),
             followingStatus := fs2 }, true)
  | none =>
    ({ clients := c1.broadcast (Msg.says cid data),
       followingStatus := s.followingStatus }, true)

/-- One atomic endpoint event. -/
def step (s : Sys) : Op → Sys × Bool
  | .connect h cid =>
    let c := s.clients.connect (h, cid)
    ({ clients := c, followingStatus := s.followingStatus.add_client cid }, true)
  | .frame h cid data => stepFrame s h cid data
  | .disconnect h cid =>
    let (c1, ok1) := s.clients.disconnect (h, cid)
    if ok1 then
      let c2 := c1.broadcast (Msg.leftChat cid)
      match s.followingStatus.remove_client cid with
      | none => ({ clients := c2, followingStatus := s.followingStatus }, false)
      | some fs2 => ({ clients := c2, followingStatus := fs2 }, true)
    else ({ clients := c1, followingStatus := s.followingStatus }, false)
  | .monConnect h =>
    ({ s with
       followingStatus :=
         { s.followingStatus with hub := s.followingStatus.hub.connect h } }, true)
  | .monDisconnect h =>
    let (hub2, ok) := s.followingStatus.hub.disconnect h
    ({ s with followingStatus := { s.followingStatus with hub := hub2 } }, ok)

/-- Run a sequence of events (later tasks keep running after one task dies
on an exception, exactly as independent asyncio tasks do). -/
def runOps (s : Sys) (ops : List Op) : Sys :=
  ops.foldl (fun st op => (step st op).1) s

/-- Event sanity relative to the current state: frames and disconnects come
only from a task whose channel is currently registered, a connect uses a
fresh transport handle, a monitor disconnect only from a registered monitor
channel. -/
def opSane (s : Sys) : Op → Bool
  | .connect h _ => !decide (h ∈ s.clients.active_connections.map Prod.fst)
  | .frame h cid _ => decide ((h, cid) ∈ s.clients.active_connections)
  | .disconnect h cid => decide ((h, cid) ∈ s.clients.active_connections)
  | .monConnect h => !decide (h ∈ s.followingStatus.hub.active_connections)
  | .monDisconnect h => decide (h ∈ s.followingStatus.hub.active_connections)

/-- Predicate: `opSane` holds at every prefix of the run. -/
def opsSane (s : Sys) : List Op → Bool
  | [] => true
  | op :: ops => opSane s op && opsSane (step s op).1 ops

/-- Strengthening of `opSane` for the connect event: the connecting
identity is not the identity of any currently registered chat channel. -/
def opDistinct (s : Sys) : Op → Bool
  | .connect _ cid => !decide (cid ∈ s.clients.active_connections.map Prod.snd)
  | _ => true

/-- Predicate: `opSane` and `opDistinct` hold at every prefix of the run. -/
def opsDistinct (s : Sys) : List Op → Bool
  | [] => true
  | op :: ops =>
    opSane s op && opDistinct s op && opsDistinct (step s op).1 ops

/-! ### Basic lemmas about the embedded primitives -/

lemma insertSorted_length (x : ℤ) (l : List ℤ) :
    (insertSorted x l).length = l.length + 1 := by
  induction l with
  | nil => rfl
  | cons y ys ih =>
    rw [insertSorted]
    split
    · simp
    · simp [ih]

lemma pySorted_length (l : List ℤ) : (pySorted l).length = l.length := by
  induction l with
  | nil => rfl
  | cons x xs ih =>
    show (insertSorted x (pySorted xs)).length = xs.length + 1
    rw [insertSorted_length, ih]

lemma pySorted_ne_nil {l : List ℤ} (h : l ≠ []) : pySorted l ≠ [] := by
  intro hnil
  apply h
  have hlen := pySorted_length l
  rw [hnil] at hlen
  exact List.length_eq_zero.mp hlen.symm

lemma statisticsMean_isSome {l : List ℤ} (h : l ≠ []) :
    (statisticsMean l).isSome := by
  rw [statisticsMean, if_neg]
  · rfl
  · simp [Nat.lt_one_iff, List.length_eq_zero, h]

lemma medianGrouped_isSome {l : List ℤ} (h : l ≠ []) :
    (medianGrouped l).isSome := by
  have hs := pySorted_ne_nil h
  rw [medianGrouped]
  rcases hds : pySorted l with _ | ⟨x, _ | ⟨y, tl⟩⟩
  · exact absurd hds hs
  · simp
  · simp

lemma dictSet_ne_nil (d : List (String × ℤ)) (k : String) (v : ℤ) :
    dictSet d k v ≠ [] := by
  by_cases h : k ∈ d.map Prod.fst
  · rw [dictSet, if_pos h]
    intro he
    rw [List.map_eq_nil_iff] at he
    subst he
    simp at h
  · rw [dictSet, if_neg h]
    simp

lemma map_fst_overwrite (d : List (String × ℤ)) (k : String) (v : ℤ) :
    (d.map (fun p => if p.1 = k then (k, v) else p)).map Prod.fst =
      d.map Prod.fst := by
  induction d with
  | nil => rfl
  | cons p ps ih =>
    by_cases hp : p.1 = k <;> simp [hp, ih]

lemma map_fst_dictSet_of_mem {d : List (String × ℤ)} {k : String} (v : ℤ)
    (h : k ∈ d.map Prod.fst) :
    (dictSet d k v).map Prod.fst = d.map Prod.fst := by
  rw [dictSet, if_pos h, map_fst_overwrite]

lemma map_fst_dictSet_of_not_mem {d : List (String × ℤ)} {k : String} (v : ℤ)
    (h : ¬ k ∈ d.map Prod.fst) :
    (dictSet d k v).map Prod.fst = d.map Prod.fst ++ [k] := by
  rw [dictSet, if_neg h]
  simp

lemma dictGet_overwrite {d : List (String × ℤ)} {k : String} (v : ℤ)
    (hk : k ∈ d.map Prod.fst) :
    dictGet (d.map (fun p => if p.1 = k then (k, v) else p)) k = some v := by
  induction d with
  | nil => simp at hk
  | cons p ps ih =>
    by_cases hp : p.1 = k
    · simp [dictGet, List.find?, hp]
    · have hk2 : k ∈ ps.map Prod.fst := by
        rw [List.map_cons] at hk
        rcases List.mem_cons.mp hk with hk1 | hk1
        · exact absurd hk1.symm hp
        · exact hk1
      simpa [dictGet, List.find?, hp] using ih hk2

lemma dictGet_append_absent {d : List (String × ℤ)} {k : String} (v : ℤ)
    (hk : ¬ k ∈ d.map Prod.fst) :
    dictGet (d ++ [(k, v)]) k = some v := by
  induction d with
  | nil => simp [dictGet, List.find?]
  | cons p ps ih =>
    have hp : ¬ p.1 = k := fun e => hk (by simp [e])
    have hk2 : ¬ k ∈ ps.map Prod.fst := fun m => hk (by simp [m])
    simpa [dictGet, List.find?, hp] using ih hk2

lemma dictGet_dictSet_self (d : List (String × ℤ)) (k : String) (v : ℤ) :
    dictGet (dictSet d k v) k = some v := by
  by_cases h : k ∈ d.map Prod.fst
  · rw [dictSet, if_pos h]
    exact dictGet_overwrite v h
  · rw [dictSet, if_neg h]
    exact dictGet_append_absent v h

lemma map_fst_filter_ne (d : List (String × ℤ)) (k : String) :
    (d.filter (fun p => p.1 ≠ k)).map Prod.fst =
      (d.map Prod.fst).filter (fun a => a ≠ k) := by
  induction d with
  | nil => rfl
  | cons p ps ih =>
    simp only [ne_eq, decide_not] at ih ⊢
    by_cases hp : p.1 = k
    · simp [List.filter_cons, hp, ih]
    · simp [List.filter_cons, hp, ih]

lemma filter_ne_of_not_mem {l : List String} {k : String} (h : ¬ k ∈ l) :
    l.filter (fun a => a ≠ k) = l := by
  apply List.filter_eq_self.mpr
  intro b hb
  simp only [ne_eq, decide_eq_true_eq]
  rintro rfl
  exact h hb

lemma removeFirst_map_snd (conns : List (Nat × String)) (h : Nat) (cid : String)
    (hnd : (conns.map Prod.snd).Nodup) (hmem : (h, cid) ∈ conns) :
    (removeFirst conns (h, cid)).map Prod.snd =
      (conns.map Prod.snd).filter (fun a => a ≠ cid) := by
  induction conns with
  | nil => simp at hmem
  | cons p ps ih =>
    rw [List.map_cons] at hnd
    rcases List.mem_cons.mp hmem with hp | hp
    · have hcid : ¬ cid ∈ ps.map Prod.snd := by
        have h2 := (List.nodup_cons.mp hnd).1
        rw [← hp] at h2
        exact h2
      rw [removeFirst, if_pos hp.symm, List.map_cons, ← hp]
      simp only [List.filter_cons]
      rw [if_neg (by simp)]
      exact (filter_ne_of_not_mem hcid).symm
    · have hcps : cid ∈ ps.map Prod.snd :=
        List.mem_map.mpr ⟨(h, cid), hp, rfl⟩
      have hpne : p.2 ≠ cid := by
        intro e
        exact (List.nodup_cons.mp hnd).1 (e ▸ hcps)
      have hppair : ¬ p = (h, cid) := by
        intro e
        exact hpne (by rw [e])
      rw [removeFirst, if_neg hppair, List.map_cons, List.map_cons]
      simp only [List.filter_cons]
      rw [if_pos (by simpa using hpne)]
      rw [ih (List.nodup_cons.mp hnd).2 hp]

/-! ### Specification lemmas for the manager and ledger operations -/

@[simp] lemma ConnectionManager.broadcast_active {H : Type}
    (s : ConnectionManager H) (m : Msg) :
    (s.broadcast m).active_connections = s.active_connections := rfl

@[simp] lemma ConnectionManager.send_personal_active {H : Type}
    (s : ConnectionManager H) (m : Msg) (w : H) :
    (s.send_personal_message m w).active_connections = s.active_connections := rfl

@[simp] lemma ConnectionManager.connect_active {H : Type} [DecidableEq H]
    (s : ConnectionManager H) (w : H) :
    (s.connect w).active_connections = s.active_connections ++ [w] := rfl

lemma jsonOf_eq (st : List (String × ℤ)) (hne : st ≠ []) :
    ∃ m md, statisticsMean (st.map Prod.snd) = some m ∧
      medianGrouped (st.map Prod.snd) = some md ∧
      FollowingStatus.jsonOf st = some (Json.objOf
        [("detail", Json.objOf (st.map (fun p => (p.1, Json.num (p.2 : ℚ))))),
         ("mean", Json.num m),
         ("median", Json.num ((Rat.floor md : ℤ) : ℚ))]) := by
  have hmap : st.map Prod.snd ≠ [] := by
    simpa [List.map_eq_nil_iff] using hne
  rcases Option.isSome_iff_exists.mp (statisticsMean_isSome hmap) with ⟨m, hm⟩
  rcases Option.isSome_iff_exists.mp (medianGrouped_isSome hmap) with ⟨md, hmd⟩
  exact ⟨m, md, hm, hmd, by rw [FollowingStatus.jsonOf, hm, hmd]⟩

lemma update_value_spec (s : FollowingStatus) (cid : String) (val : ℤ) :
    ∃ j, FollowingStatus.jsonOf (dictSet s.status cid val) = some j ∧
      s.update_value cid val =
        some ⟨s.hub.broadcast (Msg.aggregate j), dictSet s.status cid val⟩ := by
  rcases jsonOf_eq (dictSet s.status cid val) (dictSet_ne_nil _ _ _) with
    ⟨m, md, _, _, hj⟩
  exact ⟨_, hj, by rw [FollowingStatus.update_value, hj, Option.map_some']⟩

lemma average_spec (fs : FollowingStatus) (h : fs.status ≠ []) :
    fs.average =
      some ((pySum (fs.status.map Prod.snd) : ℚ) / (fs.status.length : ℚ)) := by
  rw [FollowingStatus.average, if_neg (by simpa [List.length_eq_zero] using h)]

/-- Reduction of `stepFrame` on a frame that parses as an integer: the
handler completes, the ledger entry is written (insert-or-update), the
aggregate broadcast goes to the status hub, and the two chat broadcasts
follow. -/
lemma stepFrame_numeric (s : Sys) (h : Nat) (cid : String) (data : String)
    (v : ℤ) (hp : pyInt data = some v) :
    ∃ fs2 a, s.followingStatus.update_value cid v = some fs2 ∧
      fs2.status = dictSet s.followingStatus.status cid v ∧
      fs2.hub.active_connections =
        s.followingStatus.hub.active_connections ∧
      fs2.average = some a ∧
      stepFrame s h cid data =
        ({ clients := ((s.clients.send_personal_message (Msg.youWrote data)
              (h, cid)).broadcast (Msg.adjusted cid v)).broadcast
              (Msg.followingValue a),
           followingStatus := fs2 }, true) := by
  rcases update_value_spec s.followingStatus cid v with ⟨j, hj, hu⟩
  set st := dictSet s.followingStatus.status cid v with hst
  have hget : dictGet st cid = some v := dictGet_dictSet_self _ _ _
  have hav := average_spec ⟨s.followingStatus.hub.broadcast (Msg.aggregate j), st⟩
    (by exact dictSet_ne_nil _ _ _)
  refine ⟨_, _, hu, rfl, rfl, hav, ?_⟩
  rw [stepFrame, hp]
  simp only [hu, FollowingStatus.client_status, hget, hav]

/-! ### The ledger/registry correspondence invariant -/

/-- Ledger/registry correspondence: the Status Ledger keys, in insertion
order, are exactly the identities of the currently registered chat
channels, and those identities are pairwise distinct. -/
def ledgerMatches (s : Sys) : Prop :=
  s.followingStatus.status.map Prod.fst =
    s.clients.active_connections.map Prod.snd ∧
  (s.clients.active_connections.map Prod.snd).Nodup

lemma ledgerMatches_step (s : Sys) (op : Op) (hinv : ledgerMatches s)
    (hsane : opSane s op = true) (hdis : opDistinct s op = true) :
    ledgerMatches (step s op).1 := by
  obtain ⟨hkeys, hnd⟩ := hinv
  cases op with
  | connect h cid =>
    have hcid : ¬ cid ∈ s.clients.active_connections.map Prod.snd := by
      simpa [opDistinct] using hdis
    have hck : ¬ cid ∈ s.followingStatus.status.map Prod.fst := by
      rw [hkeys]; exact hcid
    constructor
    · show (dictSet s.followingStatus.status cid 0).map Prod.fst = _
      rw [map_fst_dictSet_of_not_mem 0 hck]
      simp [step, ConnectionManager.connect, hkeys]
    · show ((s.clients.active_connections ++ [(h, cid)]).map Prod.snd).Nodup
      rw [List.map_append]
      rw [List.nodup_append]
      refine ⟨hnd, List.nodup_singleton _, ?_⟩
      intro a ha hb
      simp only [List.map_cons, List.map_nil, List.mem_singleton] at hb
      subst hb
      exact hcid ha
  | frame h cid data =>
    have hmem : (h, cid) ∈ s.clients.active_connections := by
      simpa [opSane] using hsane
    have hcid : cid ∈ s.clients.active_connections.map Prod.snd :=
      List.mem_map.mpr ⟨(h, cid), hmem, rfl⟩
    have hck : cid ∈ s.followingStatus.status.map Prod.fst := by
      rw [hkeys]; exact hcid
    show ledgerMatches (stepFrame s h cid data).1
    cases hp : pyInt data with
    | some v =>
      rcases stepFrame_numeric s h cid data v hp with ⟨fs2, a, _, hst, _, _, heq⟩
      rw [heq]
      refine ⟨?_, by simpa using hnd⟩
      show fs2.status.map Prod.fst = _
      rw [hst, map_fst_dictSet_of_mem v hck]
      simpa using hkeys
    | none =>
      rw [stepFrame, hp]
      exact ⟨by simpa using hkeys, by simpa using hnd⟩
  | disconnect h cid =>
    have hmem : (h, cid) ∈ s.clients.active_connections := by
      simpa [opSane] using hsane
    have hcid : cid ∈ s.clients.active_connections.map Prod.snd :=
      List.mem_map.mpr ⟨(h, cid), hmem, rfl⟩
    have hck : cid ∈ s.followingStatus.status.map Prod.fst := by
      rw [hkeys]; exact hcid
    have hdel : dictDel s.followingStatus.status cid =
        some (s.followingStatus.status.filter (fun p => p.1 ≠ cid)) := by
      rw [dictDel, if_pos hck]
    rw [step]
    simp only [ConnectionManager.disconnect, if_pos hmem,
      FollowingStatus.remove_client, hdel, Option.map_some']
    constructor
    · show (s.followingStatus.status.filter (fun p => p.1 ≠ cid)).map Prod.fst = _
      rw [map_fst_filter_ne, hkeys]
      show _ = ((removeFirst s.clients.active_connections (h, cid)).map Prod.snd)
      rw [removeFirst_map_snd _ h cid hnd hmem]
    · show ((removeFirst s.clients.active_connections (h, cid)).map Prod.snd).Nodup
      rw [removeFirst_map_snd _ h cid hnd hmem]
      exact List.Nodup.filter _ hnd
  | monConnect h =>
    exact ⟨hkeys, hnd⟩
  | monDisconnect h =>
    rw [step]
    exact ⟨hkeys, hnd⟩

lemma ledgerMatches_runOps (ops : List Op) (s : Sys) (hinv : ledgerMatches s)
    (hok : opsDistinct s ops = true) : ledgerMatches (runOps s ops) := by
  induction ops generalizing s with
  | nil => exact hinv
  | cons op rest ih =>
    rw [opsDistinct, Bool.and_eq_true, Bool.and_eq_true] at hok
    exact ih (step s op).1
      (ledgerMatches_step s op hinv hok.1.1 hok.1.2) hok.2

lemma sweep_stops_at_first_failure {H : Type} (bad : H → Bool) (m : Msg)
    (pre : List H) (w : H) (post : List H)
    (hpre : ∀ u ∈ pre, bad u = false) (hw : bad w = true) :
    ConnectionManager.sweep bad m (pre ++ w :: post) =
      (pre ++ [w], List.replicate (pre.length + 1) m,
       pre.map (fun u => (u, m)), false) := by
  induction pre with
  | nil => simp [ConnectionManager.sweep, hw]
  | cons u us ih =>
    have hu : bad u = false := hpre u (List.mem_cons_self u us)
    have hus : ∀ x ∈ us, bad x = false := fun x hx =>
      hpre x (List.mem_cons_of_mem u hx)
    simp [ConnectionManager.sweep, hu, ih hus, List.replicate_succ]

lemma foldl_add_intCast (l : List ℤ) (a : ℤ) :
    ((l.foldl (· + ·) a : ℤ) : ℚ) =
      l.foldl (fun acc x => acc + (x : ℚ)) (a : ℚ) := by
  induction l generalizing a with
  | nil => rfl
  | cons x xs ih =>
    show ((xs.foldl (· + ·) (a + x) : ℤ) : ℚ) = _
    rw [ih (a + x)]
    simp

lemma dictGet_isSome_iff (d : List (String × ℤ)) (k : String) :
    (∃ v, dictGet d k = some v) ↔ k ∈ d.map Prod.fst := by
  induction d with
  | nil => simp [dictGet]
  | cons p ps ih =>
    by_cases hp : p.1 = k
    · simp [dictGet, List.find?_cons, hp]
    · simp only [dictGet, List.find?_cons] at ih ⊢
      rw [List.map_cons, List.mem_cons]
      have hd : (decide (p.1 = k)) = false := by simp [hp]
      rw [hd]
      constructor
      · intro hx
        exact Or.inr (ih.mp hx)
      · intro hx
        rcases hx with hx | hx
        · exact absurd hx.symm hp
        · exact ih.mpr hx


lemma ratFloor_eq_intFloor (q : ℚ) : Rat.floor q = ⌊q⌋ := by
  rw [Rat.floor_def', Rat.floor_def]

lemma statisticsMean_fourList : statisticsMean [1, 2, 3, 4] = some (5 / 2) := by
  rw [statisticsMean, if_neg (by norm_num)]
  norm_num [List.foldl]

lemma medianGrouped_fourList : medianGrouped [1, 2, 3, 4] = some (5 / 2) := by
  have hs : pySorted [1, 2, 3, 4] = [1, 2, 3, 4] := by decide
  rw [medianGrouped, hs]
  norm_num [List.getD, List.findIdx, List.findIdx.go, List.count, List.countP,
    List.countP.go]

lemma statisticsMean_zeroSingleton : statisticsMean [0] = some 0 := by
  rw [statisticsMean, if_neg (by norm_num)]
  norm_num [List.foldl]

lemma medianGrouped_zeroSingleton : medianGrouped [0] = some 0 := by
  have hs : pySorted [0] = [0] := by decide
  rw [medianGrouped, hs]
  norm_num

lemma ratFloor_five_halves : Rat.floor (5 / 2 : ℚ) = 2 := by
  rw [ratFloor_eq_intFloor, Int.floor_eq_iff]
  norm_num

lemma ratFloor_zero : Rat.floor (0 : ℚ) = 0 := by
  rw [ratFloor_eq_intFloor]
  norm_num

/-! ### Claim theorems -/

/-- C1: the claim says each published message is appended to the history
exactly once and a later joiner receives each earlier message exactly once.
The code appends INSIDE the broadcast loop (line 36): with two registered
channels one publish appends the message twice and a third channel joining
afterwards receives two copies; with an empty registry the message is never
recorded at all.  This evaluates the embedded code at that failing input. -/
theorem C1_publish_duplicates_history :
    ((((ConnectionManager.init : ConnectionManager Nat).connect 1).connect 2).broadcast
        (Msg.says "A" "x")).history = [Msg.says "A" "x", Msg.says "A" "x"] ∧
    (((((ConnectionManager.init : ConnectionManager Nat).connect 1).connect 2).broadcast
        (Msg.says "A" "x")).connect 3).sent.filter (fun p => p.1 = 3) =
      [(3, Msg.says "A" "x"), (3, Msg.says "A" "x")] ∧
    ((ConnectionManager.init : ConnectionManager Nat).broadcast
        (Msg.says "A" "x")).history = [] := by
  decide

/-- C3, counterexample to the claim as stated: in a registry with channels
1 and 2 where the send to channel 1 fails, channel 2 receives NO delivery
attempt and the exception escapes `broadcast` to the caller — the failure
is not isolated. -/
theorem C3_failure_not_isolated_cex :
    (ConnectionManager.broadcastF (fun w => w == 1)
        { active_connections := [1, 2], history := [], sent := [] }
        (Msg.says "A" "x")).2.1 = [1] ∧
    ¬ 2 ∈ (ConnectionManager.broadcastF (fun w => w == 1)
        { active_connections := [1, 2], history := [], sent := [] }
        (Msg.says "A" "x")).2.1 ∧
    (ConnectionManager.broadcastF (fun w => w == 1)
        { active_connections := [1, 2], history := [], sent := [] }
        (Msg.says "A" "x")).2.2 = false := by
  decide

/-- C3, amended: a transport failure on the k-th send ABORTS the broadcast
sweep.  Channels 1..k receive send attempts (and the history is appended
once per started iteration, k+1 times), channels k+1..n receive none, and
the exception propagates to the caller instead of being collected. -/
theorem C3_failed_send_aborts_broadcast {H : Type} [DecidableEq H]
    (bad : H → Bool) (s : ConnectionManager H) (m : Msg)
    (pre : List H) (w : H) (post : List H)
    (hact : s.active_connections = pre ++ w :: post)
    (hpre : ∀ u ∈ pre, bad u = false) (hw : bad w = true) :
    ConnectionManager.broadcastF bad s m =
      ({ s with history := s.history ++ List.replicate (pre.length + 1) m,
                sent := s.sent ++ pre.map (fun u => (u, m)) },
       pre ++ [w], false) := by
  rw [ConnectionManager.broadcastF, hact,
    sweep_stops_at_first_failure bad m pre w post hpre hw]

/-- C3 witness: the amended theorem applied to registry `[2, 1, 3]` with
the send to channel 1 failing. -/
theorem C3_failed_send_aborts_broadcast_witness :
    ConnectionManager.broadcastF (fun w => w == 1)
        { active_connections := [2, 1, 3], history := [], sent := [] }
        (Msg.says "A" "x") =
      ({ active_connections := [2, 1, 3],
         history := [] ++ List.replicate 2 (Msg.says "A" "x"),
         sent := [] ++ [2].map (fun u => (u, Msg.says "A" "x")) },
       [2, 1], false) :=
  C3_failed_send_aborts_broadcast (fun w => w == 1)
    { active_connections := [2, 1, 3], history := [], sent := [] }
    (Msg.says "A" "x") [2] 1 [3] rfl (by decide) (by decide)

/-- C5, counterexample to the claim as stated: a channel whose replay send
fails (here channel 7, with non-empty history) is NOT added to the
registry — the failure is fatal for registration, not non-fatal. -/
theorem C5_replay_failure_not_registered_cex :
    ConnectionManager.connectF (fun w => w == 7)
        { active_connections := [1], history := [Msg.says "A" "x"], sent := [] } 7 =
      ({ active_connections := [1], history := [Msg.says "A" "x"], sent := [] },
       false) ∧
    ¬ 7 ∈ (ConnectionManager.connectF (fun w => w == 7)
        { active_connections := [1], history := [Msg.says "A" "x"], sent := [] }
        7).1.active_connections := by
  decide

/-- C5, amended: `join` replays the full history and then registers the
channel only in the failure-free run; when a replay send fails (non-empty
history, failing channel) the exception propagates BEFORE the registry
append, so the channel is not registered and is not broadcast-eligible. -/
theorem C5_join_replay_failure_fatal {H : Type} [DecidableEq H]
    (bad : H → Bool) (s : ConnectionManager H) (w : H) :
    (bad w = true → s.history ≠ [] →
      ConnectionManager.connectF bad s w = (s, false)) ∧
    (bad w = false →
      ConnectionManager.connectF bad s w = (s.connect w, true)) := by
  constructor
  · intro hb hh
    rw [ConnectionManager.connectF, if_pos]
    rw [hb, Bool.true_and, Bool.not_eq_true']
    simpa [List.isEmpty_iff] using hh
  · intro hb
    rw [ConnectionManager.connectF, if_neg]
    rw [hb]
    simp

/-- C5 witness: the amended theorem at a channel with a failing transport
and one history entry, and at a channel with a working transport. -/
theorem C5_join_replay_failure_fatal_witness :
    ConnectionManager.connectF (fun w => w == 7)
        { active_connections := [1], history := [Msg.says "A" "x"], sent := [] } 7 =
      ({ active_connections := [1], history := [Msg.says "A" "x"], sent := [] },
       false) ∧
    ConnectionManager.connectF (fun w => w == 7)
        { active_connections := [1], history := [Msg.says "A" "x"], sent := [] } 8 =
      (ConnectionManager.connect
        { active_connections := [1], history := [Msg.says "A" "x"], sent := [] } 8,
       true) :=
  ⟨(C5_join_replay_failure_fatal (fun w => w == 7)
      { active_connections := [1], history := [Msg.says "A" "x"], sent := [] } 7).1
      (by decide) (by decide),
   (C5_join_replay_failure_fatal (fun w => w == 7)
      { active_connections := [1], history := [Msg.says "A" "x"], sent := [] } 8).2
      (by decide)⟩

/-- C8, counterexample to the claim as stated: `disconnect` of an absent
handle is NOT a silent no-op — `list.remove` raises `ValueError` (the
`false` flag), both on a never-registered handle and on the second of two
disconnects of the same handle. -/
theorem C8_disconnect_absent_raises_cex :
    ConnectionManager.disconnect (ConnectionManager.init : ConnectionManager Nat) 5 =
      (ConnectionManager.init, false) ∧
    ((((ConnectionManager.init : ConnectionManager Nat).connect 1).disconnect 1).1.disconnect
        1).2 = false := by
  decide

/-- C8, amended: `disconnect` of a handle absent from the registry leaves
the registry unchanged but raises `ValueError` rather than returning
silently, so the leave cleanup is not idempotent under double-invocation
(the state is unharmed; only the exception escapes). -/
theorem C8_disconnect_absent_raises {H : Type} [DecidableEq H]
    (s : ConnectionManager H) (w : H) (h : ¬ w ∈ s.active_connections) :
    s.disconnect w = (s, false) := by
  rw [ConnectionManager.disconnect, if_neg h]

/-- C8 witness: the amended theorem at the empty registry and handle 5. -/
theorem C8_disconnect_absent_raises_witness :
    ¬ 5 ∈ (ConnectionManager.init : ConnectionManager Nat).active_connections ∧
    ConnectionManager.disconnect (ConnectionManager.init : ConnectionManager Nat) 5 =
      (ConnectionManager.init, false) :=
  ⟨by decide, C8_disconnect_absent_raises ConnectionManager.init 5 (by decide)⟩

/-- C4, counterexample to the claim as stated: `update_value` on an absent
identity does NOT fail with NotFound — dict assignment inserts the key.
After `add_client "A"; remove_client "A"`, `update_value "A" 5` succeeds
and leaves the ledger with the entry A ↦ 5. -/
theorem C4_update_after_remove_succeeds_cex :
    (FollowingStatus.init.add_client "A").remove_client "A" =
      some ⟨ConnectionManager.init, []⟩ ∧
    (((FollowingStatus.init.add_client "A").remove_client "A").bind
        (fun fs => fs.update_value "A" 5)) =
      some ⟨ConnectionManager.init, [("A", 5)]⟩ := by
  decide

/-- C4, amended: `update_value(identity, value)` does not require the
identity to be present: the dict assignment inserts-or-updates, so
`remove_client` immediately followed by `update_value(identity, v)`
succeeds (no NotFound) and leaves the ledger WITH an entry identity ↦ v. -/
theorem C4_update_value_inserts_after_remove (fs fs2 : FollowingStatus)
    (cid : String) (v : ℤ) (hrm : fs.remove_client cid = some fs2) :
    ∃ fs3, fs2.update_value cid v = some fs3 ∧
      fs3.client_status cid = some v ∧
      fs3.status = dictSet fs2.status cid v := by
  rcases update_value_spec fs2 cid v with ⟨j, hj, hu⟩
  exact ⟨_, hu, dictGet_dictSet_self _ _ _, rfl⟩

/-- C4 witness: the amended theorem after `add_client "A"` and
`remove_client "A"`. -/
theorem C4_update_value_inserts_after_remove_witness :
    (FollowingStatus.init.add_client "A").remove_client "A" =
      some ⟨ConnectionManager.init, []⟩ ∧
    ∃ fs3, FollowingStatus.update_value ⟨ConnectionManager.init, []⟩ "A" 5 =
        some fs3 ∧
      fs3.client_status "A" = some 5 ∧
      fs3.status = dictSet [] "A" 5 :=
  ⟨by decide,
   C4_update_value_inserts_after_remove (FollowingStatus.init.add_client "A")
     ⟨ConnectionManager.init, []⟩ "A" 5 (by decide)⟩

/-- C6: for every non-empty ledger the serialized aggregate is an object
with exactly the keys detail, mean, median (in that order); on the ledger
{A:1, B:2, C:3, D:4} the mean is 5/2 and the floored grouped median is 2;
on the singleton ledger {A:0} the mean is 0 and the median is 0. -/
theorem C6_aggregate_keys_and_values :
    (∀ st : List (String × ℤ), st ≠ [] →
      ∃ j, FollowingStatus.jsonOf st = some j ∧
        j.topKeys = some ["detail", "mean", "median"]) ∧
    FollowingStatus.jsonOf [("A", 1), ("B", 2), ("C", 3), ("D", 4)] =
      some (Json.objOf
        [("detail", Json.objOf [("A", Json.num 1), ("B", Json.num 2),
            ("C", Json.num 3), ("D", Json.num 4)]),
         ("mean", Json.num (5 / 2)),
         ("median", Json.num 2)]) ∧
    FollowingStatus.jsonOf [("A", 0)] =
      some (Json.objOf [("detail", Json.objOf [("A", Json.num 0)]),
         ("mean", Json.num 0), ("median", Json.num 0)]) := by
  refine ⟨?_, ?_, ?_⟩
  · intro st hne
    rcases jsonOf_eq st hne with ⟨m, md, _, _, hj⟩
    exact ⟨_, hj, rfl⟩
  · have hmap : ([("A", (1 : ℤ)), ("B", 2), ("C", 3), ("D", 4)].map Prod.snd) =
        [1, 2, 3, 4] := rfl
    rw [FollowingStatus.jsonOf, hmap, statisticsMean_fourList,
      medianGrouped_fourList]
    simp only [Json.objOf, List.map_cons, List.map_nil, ratFloor_five_halves]
    norm_num
  · have hmap : ([("A", (0 : ℤ))].map Prod.snd) = [0] := rfl
    rw [FollowingStatus.jsonOf, hmap, statisticsMean_zeroSingleton,
      medianGrouped_zeroSingleton]
    simp only [Json.objOf, List.map_cons, List.map_nil, ratFloor_zero]
    norm_num

/-- C6 witness: the universally quantified part applied to the concrete
non-empty ledger {Z:3}. -/
theorem C6_aggregate_keys_and_values_witness :
    ∃ j, FollowingStatus.jsonOf [("Z", (3 : ℤ))] = some j ∧
      j.topKeys = some ["detail", "mean", "median"] :=
  C6_aggregate_keys_and_values.1 [("Z", 3)] (by decide)

/-- C10: on every non-empty ledger the `average` property (Python
`sum(...) / len(...)`) and the `mean` field computed by the `json`
property (`statistics.mean` over the same values) agree exactly. -/
theorem C10_average_agrees_with_statisticsMean (fs : FollowingStatus)
    (h : fs.status ≠ []) :
    fs.average = statisticsMean (fs.status.map Prod.snd) := by
  rw [average_spec fs h, statisticsMean,
    if_neg (by simpa [Nat.lt_one_iff, List.length_eq_zero, List.map_eq_nil_iff] using h)]
  rw [pySum, foldl_add_intCast]
  simp

/-- C10 witness: the agreement at the concrete ledger {A:1, B:2}. -/
theorem C10_average_agrees_with_statisticsMean_witness :
    FollowingStatus.average ⟨ConnectionManager.init, [("A", 1), ("B", 2)]⟩ =
      statisticsMean ([("A", (1 : ℤ)), ("B", 2)].map Prod.snd) :=
  C10_average_agrees_with_statisticsMean
    ⟨ConnectionManager.init, [("A", 1), ("B", 2)]⟩ (by decide)

/-- C7: a frame on `/ws/{client_id}` whose payload does not parse as a
Python int leaves the Status Ledger and the status hub completely
unchanged and produces no aggregate broadcast: the handler completes with
exactly the personal echo to the sender followed by the plain-text chat
broadcast of the payload. -/
theorem C7_nonnumeric_frame_is_plain_chat (s : Sys) (h : Nat)
    (cid data : String) (hp : pyInt data = none) :
    step s (.frame h cid data) =
      ({ clients := (s.clients.send_personal_message (Msg.youWrote data)
            (h, cid)).broadcast (Msg.says cid data),
         followingStatus := s.followingStatus }, true) := by
  show stepFrame s h cid data = _
  rw [stepFrame, hp]

/-- C7 witness: the initial state with channel (1, A) receiving the
non-numeric payload hello. -/
theorem C7_nonnumeric_frame_is_plain_chat_witness :
    pyInt "hello" = none ∧
    step sysInit (.frame 1 "A" "hello") =
      ({ clients := (sysInit.clients.send_personal_message
            (Msg.youWrote "hello") (1, "A")).broadcast (Msg.says "A" "hello"),
         followingStatus := sysInit.followingStatus }, true) :=
  ⟨by decide, C7_nonnumeric_frame_is_plain_chat sysInit 1 "A" "hello" (by decide)⟩

/-- C9: the empty-aggregate condition is structurally unreachable — on a
numeric frame, `update_value` writes the identity's score before any
aggregate is computed, so the dict passed to the `json` and `average`
properties is non-empty in every state, the aggregation functions return
values rather than raising, and the handler completes. -/
theorem C9_aggregation_never_sees_empty_ledger (s : Sys) (h : Nat)
    (cid data : String) (v : ℤ) (hp : pyInt data = some v) :
    dictSet s.followingStatus.status cid v ≠ [] ∧
    (∃ fs2, s.followingStatus.update_value cid v = some fs2 ∧
      fs2.status ≠ [] ∧
      FollowingStatus.jsonOf fs2.status ≠ none ∧
      fs2.average.isSome) ∧
    (step s (.frame h cid data)).2 = true := by
  rcases stepFrame_numeric s h cid data v hp with ⟨fs2, a, hu, hst, _, hav, heq⟩
  have hne : fs2.status ≠ [] := by
    rw [hst]
    exact dictSet_ne_nil _ _ _
  refine ⟨by rw [← hst]; exact hne, ⟨fs2, hu, hne, ?_, by rw [hav]; rfl⟩, ?_⟩
  · rcases jsonOf_eq fs2.status hne with ⟨m, md, _, _, hj⟩
    rw [hj]
    simp
  · show (stepFrame s h cid data).2 = true
    rw [heq]

/-- C9 witness: the initial state with channel (1, A) receiving the
numeric payload 5. -/
theorem C9_aggregation_never_sees_empty_ledger_witness :
    pyInt "5" = some 5 ∧
    (dictSet sysInit.followingStatus.status "A" 5 ≠ [] ∧
     (∃ fs2, sysInit.followingStatus.update_value "A" 5 = some fs2 ∧
       fs2.status ≠ [] ∧
       FollowingStatus.jsonOf fs2.status ≠ none ∧
       fs2.average.isSome) ∧
     (step sysInit (.frame 1 "A" "5")).2 = true) :=
  ⟨by decide, C9_aggregation_never_sees_empty_ledger sysInit 1 "A" "5" 5 (by decide)⟩

/-- C2, counterexample to the claim as stated: two channels may connect
with the same path identity.  The sane event sequence connect(1, A);
connect(2, A); disconnect(1, A) leaves channel (2, A) registered while the
ledger has NO entry for A — the entry-iff-connected invariant fails. -/
theorem C2_shared_identity_breaks_invariant_cex :
    opsSane sysInit
        [Op.connect 1 "A", Op.connect 2 "A", Op.disconnect 1 "A"] = true ∧
    (runOps sysInit
        [Op.connect 1 "A", Op.connect 2 "A", Op.disconnect 1 "A"]).clients.active_connections =
      [(2, "A")] ∧
    (runOps sysInit
        [Op.connect 1 "A", Op.connect 2 "A", Op.disconnect 1 "A"]).followingStatus.status =
      [] := by
  decide

/-- C2, amended: restricted to event sequences in which each connect uses
an identity not currently connected (no concurrently shared identities),
the Status Ledger invariant holds in every reachable state: the ledger
keys, in order, are exactly the identities of the registered channels
(hence exactly one entry per registered identity, created on join, deleted
on leave), and an entry exists for an identity iff a channel with that
identity is registered. -/
theorem C2_ledger_invariant_under_distinct_identities (ops : List Op)
    (hops : opsDistinct sysInit ops = true) :
    ledgerMatches (runOps sysInit ops) ∧
    (∀ cid : String,
      (∃ v, dictGet (runOps sysInit ops).followingStatus.status cid = some v) ↔
        cid ∈ (runOps sysInit ops).clients.active_connections.map Prod.snd) := by
  have hinv : ledgerMatches (runOps sysInit ops) :=
    ledgerMatches_runOps ops sysInit ⟨rfl, List.nodup_nil⟩ hops
  refine ⟨hinv, fun cid => ?_⟩
  rw [dictGet_isSome_iff, hinv.1]

/-- C2 witness: the amended theorem on the distinct-identity sequence
connect(1, A); connect(2, B); disconnect(1, A). -/
theorem C2_ledger_invariant_under_distinct_identities_witness :
    opsDistinct sysInit
        [Op.connect 1 "A", Op.connect 2 "B", Op.disconnect 1 "A"] = true ∧
    (ledgerMatches (runOps sysInit
        [Op.connect 1 "A", Op.connect 2 "B", Op.disconnect 1 "A"]) ∧
     (∀ cid : String,
       (∃ v, dictGet (runOps sysInit
           [Op.connect 1 "A", Op.connect 2 "B", Op.disconnect 1 "A"]).followingStatus.status
           cid = some v) ↔
         cid ∈ (runOps sysInit
           [Op.connect 1 "A", Op.connect 2 "B", Op.disconnect 1 "A"]).clients.active_connections.map
             Prod.snd)) :=
  ⟨by decide, C2_ledger_invariant_under_distinct_identities
    [Op.connect 1 "A", Op.connect 2 "B", Op.disconnect 1 "A"] (by decide)⟩
